import Mathlib

/-!
Verification of the monster-summoner core of the Automated-Taskmaster
repository (`src/at-api-backend/automated_taskmaster/helpers/monster_summoner.py`
and `models/monster.py`), shallowly embedded in Lean.

Python floats are modelled as rationals; strings are worked on through
their character lists. The Python values reaching the CR field are
numbers, strings, or anything else, modelled by `CRValue`.
-/

/-- Value of the `cr` field as seen by `_convert_cr_to_float`, whose Python
signature is `Any`: a number (int or float), a string, or any other type. -/
inductive CRValue where
  | num (q : ℚ)
  | str (s : String)
  | other
deriving DecidableEq, Repr

/-- Digits to the natural number they denote in base 10 (model of the core
of Python numeric-string parsing). -/
def digitsToNat (l : List Char) : ℕ :=
  l.foldl (fun a c => a * 10 + (c.toNat - 48)) 0

/-- Model of Python `float(s)` restricted to the unsigned part of a plain
decimal literal: `digits`, `digits.digits`, `digits.` or `.digits`.
Exponent, infinity and nan spellings are outside the fragment the
repository's data and the claims exercise. -/
def parseUnsignedDecimal (l : List Char) : Option ℚ :=
  match l.splitOn '.' with
  | [ds] =>
      if ds ≠ [] ∧ ds.all Char.isDigit then some (digitsToNat ds) else none
  | [ip, fp] =>
      if (ip ≠ [] ∨ fp ≠ []) ∧ ip.all Char.isDigit ∧ fp.all Char.isDigit then
        some ((digitsToNat ip : ℚ) + (digitsToNat fp : ℚ) / (10 ^ fp.length))
      else none
  | _ => none

/-- Surrounding whitespace stripped from a character list, as Python
`float` does before parsing. -/
def trimChars (l : List Char) : List Char :=
  ((l.dropWhile Char.isWhitespace).reverse.dropWhile Char.isWhitespace).reverse

/-- Model of Python `float(s)` on the characters of a string: surrounding
whitespace is stripped, an optional sign is consumed, the rest must be a
plain decimal literal; `none` models the `ValueError` raised on an
unparsable string. -/
def pyFloatChars (l : List Char) : Option ℚ :=
  match trimChars l with
  | '-' :: rest => (parseUnsignedDecimal rest).map Neg.neg
  | '+' :: rest => parseUnsignedDecimal rest
  | t => parseUnsignedDecimal t

/-- Embedding of `_convert_cr_to_float` (helpers/monster_summoner.py,
lines 69-101): a number is returned as a float directly; a string
containing `/` is split on `/` and parsed as numerator over denominator,
with a malformed fraction (a part that does not parse, or more than two
parts, whose unpacking also raises `ValueError`) giving -1; a plain string
is parsed directly, -1 on failure; any other type gives -1. A zero
denominator raises `ZeroDivisionError` in Python; rational division by
zero yields 0 here, a path none of the claims touches. -/
def convert_cr_to_float (cr : CRValue) : ℚ :=
  match cr with
  | .num q => q
  | .str s =>
      if s.toList.contains '/' then
        match s.toList.splitOn '/' with
        | [a, b] =>
            match pyFloatChars a, pyFloatChars b with
            | some n, some d => n / d
            | _, _ => -1
        | _ => -1
      else
        match pyFloatChars s.toList with
        | some q => q
        | none => -1
  | .other => -1

/-- Embedding of the `Monster` pydantic model (models/monster.py): name,
challenge rating (float or string in the model, `CRValue` here), list of
environment tags, and the sourcebook string. -/
structure Monster where
  name : String
  cr : CRValue
  environment : List String
  sourceBook : String
deriving DecidableEq, Repr

/-- Embedding of the `MonsterSummonRequest` pydantic model: optional CR
bounds, optional environment needle, and the result limit. -/
structure MonsterSummonRequest where
  cr_min : Option ℚ
  cr_max : Option ℚ
  environment : Option String
  limit : ℕ
deriving DecidableEq, Repr

/-- Pydantic validation of `MonsterSummonRequest`: `cr_min` and `cr_max`
carry `ge=0`, `limit` carries `ge=1, le=50` with default 10; `environment`
is unconstrained. -/
def MonsterSummonRequest.Valid (p : MonsterSummonRequest) : Prop :=
  (∀ q ∈ p.cr_min, 0 ≤ q) ∧ (∀ q ∈ p.cr_max, 0 ≤ q) ∧
  1 ≤ p.limit ∧ p.limit ≤ 50

/-- Model of Python substring containment `needle in hay` on character
lists: some split point of `hay` starts with `needle`; the empty needle is
contained in every string. -/
def charsContain (needle hay : List Char) : Bool :=
  (List.range (hay.length + 1)).any fun i =>
    decide ((hay.drop i).take needle.length = needle)

/-- Model of Python `s.lower()` (ASCII fragment, via `Char.toLower`). -/
def lowerChars (s : String) : List Char :=
  s.toList.map Char.toLower

/-- The environment predicate of the claim: some tag of the monster
contains the needle case-insensitively as a substring
(`params.environment.lower() in env.lower()` over `monster.environment`). -/
def envSubstrMatch (needle : String) (m : Monster) : Bool :=
  m.environment.any fun env => charsContain (lowerChars needle) (lowerChars env)

/-- The three guards of the `find_monsters` loop (helpers/monster_summoner.py,
lines 132-146), conjoined: a monster is kept when its converted CR is not
below `cr_min`, not above `cr_max`, and, when `params.environment` is truthy
(set and nonempty — Python `if params.environment:`), some tag contains it
case-insensitively. -/
def passes (p : MonsterSummonRequest) (m : Monster) : Bool :=
  (match p.cr_min with
   | some q => !(convert_cr_to_float m.cr < q)
   | none => true) &&
  (match p.cr_max with
   | some q => !(q < convert_cr_to_float m.cr)
   | none => true) &&
  (match p.environment with
   | some e => if e.isEmpty then true else envSubstrMatch e m
   | none => true)

/-- The `find_monsters` loop with the running result length as `count`:
a passing monster is appended, and the loop breaks as soon as the result
length reaches `params.limit`. Re-validation of the dumped record
(`Monster(**monster_data)`) always succeeds on a well-typed `Monster`, so
no record is dropped at that step. -/
def findGo (p : MonsterSummonRequest) (count : ℕ) : List Monster → List Monster
  | [] => []
  | m :: rest =>
      if passes p m then
        if p.limit ≤ count + 1 then [m]
        else m :: findGo p (count + 1) rest
      else findGo p count rest

/-- Embedding of `find_monsters` (helpers/monster_summoner.py, lines
104-161) applied to an explicit catalog in place of the cached file
contents. -/
def find_monsters (p : MonsterSummonRequest) (catalog : List Monster) :
    List Monster :=
  findGo p 0 catalog

/-- Helper lemma: every member of the loop's result passes the conjoined
guards, whatever the running count. -/
theorem passes_of_mem_findGo (p : MonsterSummonRequest) :
    ∀ (l : List Monster) (c : ℕ) (m : Monster),
      m ∈ findGo p c l → passes p m = true := by
  intro l
  induction l with
  | nil => intro c m h; simp [findGo] at h
  | cons a rest ih =>
      intro c m h
      simp only [findGo] at h
      by_cases ha : passes p a = true
      · rw [if_pos ha] at h
        by_cases hc : p.limit ≤ c + 1
        · rw [if_pos hc] at h
          rw [List.mem_singleton] at h
          subst h; exact ha
        · rw [if_neg hc, List.mem_cons] at h
          rcases h with rfl | h
          · exact ha
          · exact ih _ _ h
      · rw [if_neg ha] at h
        exact ih _ _ h

/-- Helper lemma: while the count is below the limit, the loop returns the
first `limit - count` elements of the filtered remainder. -/
theorem findGo_eq_take (p : MonsterSummonRequest) :
    ∀ (l : List Monster) (c : ℕ), c < p.limit →
      findGo p c l = (l.filter (passes p)).take (p.limit - c) := by
  intro l
  induction l with
  | nil => intro c h; simp [findGo]
  | cons a rest ih =>
      intro c h
      simp only [findGo, List.filter_cons]
      by_cases ha : passes p a = true
      · rw [if_pos ha, if_pos ha]
        by_cases hc : p.limit ≤ c + 1
        · have h1 : p.limit - c = 1 := by omega
          rw [if_pos hc, h1, List.take_succ_cons, List.take_zero]
        · have h2 : p.limit - c = (p.limit - (c + 1)) + 1 := by omega
          rw [if_neg hc, h2, List.take_succ_cons, ih (c + 1) (by omega)]
      · rw [if_neg ha, if_neg ha]
        exact ih c h

/-- Concrete catalog entry with no environment tags, for the C1
counterexample. -/
def shadeMonster : Monster := ⟨"shade", .num 1, [], "MM"⟩

/-- Concrete request whose environment needle is the empty string: present
on the model, but falsy for the Python guard `if params.environment:`. -/
def emptyNeedleRequest : MonsterSummonRequest := ⟨none, none, some "", 10⟩

/-- Concrete forest wolf used in the witnesses. -/
def wolfMonster : Monster := ⟨"wolf", .num 1, ["Forest", "Hills"], "MM"⟩

/-- Concrete mountain dragon that fails the forest filters. -/
def dragonMonster : Monster := ⟨"dragon", .num 5, ["Mountain"], "MM"⟩

/-- Concrete request asking for CR between 1 and 3 in a forest. -/
def forestRequest : MonsterSummonRequest := ⟨some 1, some 3, some "forest", 10⟩

/-- Concrete request like `forestRequest` but keeping a single result. -/
def forestOneRequest : MonsterSummonRequest := ⟨some 1, some 3, some "forest", 1⟩

/-- Helper lemma: the empty-needle request passes pydantic validation. -/
theorem emptyNeedleRequest_valid : emptyNeedleRequest.Valid := by
  refine ⟨?_, ?_, ?_, ?_⟩
  · intro q hq; simp [emptyNeedleRequest] at hq
  · intro q hq; simp [emptyNeedleRequest] at hq
  · decide
  · decide

/-- Helper lemma: the forest request passes pydantic validation. -/
theorem forestRequest_valid : forestRequest.Valid := by
  refine ⟨?_, ?_, ?_, ?_⟩
  · intro q hq
    simp only [forestRequest, Option.mem_def, Option.some.injEq] at hq
    subst hq; norm_num
  · intro q hq
    simp only [forestRequest, Option.mem_def, Option.some.injEq] at hq
    subst hq; norm_num
  · decide
  · decide

/-- Helper lemma: the single-result forest request passes pydantic
validation. -/
theorem forestOneRequest_valid : forestOneRequest.Valid := by
  refine ⟨?_, ?_, ?_, ?_⟩
  · intro q hq
    simp only [forestOneRequest, Option.mem_def, Option.some.injEq] at hq
    subst hq; norm_num
  · intro q hq
    simp only [forestOneRequest, Option.mem_def, Option.some.injEq] at hq
    subst hq; norm_num
  · decide
  · decide

/-- C1 counterexample: a valid request whose environment filter is the
empty string (set, in the sense of present) returns a monster that has no
environment tag at all, so no tag contains the needle; the code's guard
`if params.environment:` treats the empty string as absent. -/
theorem C1_counterexample :
    emptyNeedleRequest.Valid ∧
    emptyNeedleRequest.environment.isSome = true ∧
    find_monsters emptyNeedleRequest [shadeMonster] = [shadeMonster] ∧
    envSubstrMatch "" shadeMonster = false :=
  ⟨emptyNeedleRequest_valid, rfl, rfl, rfl⟩

/-- C1 (amended to the truthiness guard): every monster returned by
`find_monsters` under a valid request has converted CR at least `cr_min`
when set, at most `cr_max` when set, and, when the environment needle is
set and nonempty, some environment tag contains it case-insensitively. -/
theorem C1_returned_monsters_satisfy_filters (p : MonsterSummonRequest)
    (catalog : List Monster) (_hp : p.Valid) (m : Monster)
    (hm : m ∈ find_monsters p catalog) :
    (∀ q : ℚ, p.cr_min = some q → q ≤ convert_cr_to_float m.cr) ∧
    (∀ q : ℚ, p.cr_max = some q → convert_cr_to_float m.cr ≤ q) ∧
    (∀ e : String, p.environment = some e → e.isEmpty = false →
      envSubstrMatch e m = true) := by
  have hpass := passes_of_mem_findGo p catalog 0 m hm
  simp only [passes, Bool.and_eq_true] at hpass
  obtain ⟨⟨h1, h2⟩, h3⟩ := hpass
  refine ⟨?_, ?_, ?_⟩
  · intro q hq
    rw [hq] at h1
    simp only [Bool.not_eq_eq_eq_not, Bool.not_true, decide_eq_false_iff_not,
      not_lt] at h1
    exact h1
  · intro q hq
    rw [hq] at h2
    simp only [Bool.not_eq_eq_eq_not, Bool.not_true, decide_eq_false_iff_not,
      not_lt] at h2
    exact h2
  · intro e he hne
    rw [he] at h3
    simp only [hne, Bool.false_eq_true, if_false] at h3
    exact h3

/-- Helper lemma: the wolf is returned for the forest request, by direct
evaluation of the loop. -/
theorem wolf_mem_find : wolfMonster ∈ find_monsters forestRequest [wolfMonster] := by
  rw [show find_monsters forestRequest [wolfMonster] = [wolfMonster] from rfl]
  exact List.mem_singleton.mpr rfl

/-- Witness for C1: a CR-1 forest wolf returned for a request with
`cr_min = 1`, `cr_max = 3`, `environment = "forest"` satisfies the three
instantiated predicates. -/
theorem C1_returned_monsters_witness :
    (1 : ℚ) ≤ convert_cr_to_float wolfMonster.cr ∧
    convert_cr_to_float wolfMonster.cr ≤ 3 ∧
    envSubstrMatch "forest" wolfMonster = true := by
  have h := C1_returned_monsters_satisfy_filters forestRequest [wolfMonster]
    forestRequest_valid wolfMonster wolf_mem_find
  exact ⟨h.1 1 rfl, h.2.1 3 rfl, h.2.2 "forest" rfl rfl⟩

/-- C2: under a valid request the result of `find_monsters` is exactly the
first `limit` elements, in catalog order, of the catalog filtered by the
conjoined guards, and its length is at most `limit`. -/
theorem C2_result_is_limited_filtered_front (p : MonsterSummonRequest)
    (catalog : List Monster) (hp : p.Valid) :
    find_monsters p catalog = (catalog.filter (passes p)).take p.limit ∧
    (find_monsters p catalog).length ≤ p.limit := by
  have h0 : 0 < p.limit := hp.2.2.1
  have he := findGo_eq_take p catalog 0 h0
  rw [Nat.sub_zero] at he
  refine ⟨he, ?_⟩
  rw [find_monsters, he]
  exact List.length_take_le _ _

/-- Witness for C2: the equality and the length bound evaluated on a
two-monster catalog where only the wolf passes the filters and the limit
is one. -/
theorem C2_result_witness :
    find_monsters forestOneRequest [wolfMonster, dragonMonster] =
      ([wolfMonster, dragonMonster].filter (passes forestOneRequest)).take
        forestOneRequest.limit ∧
    (find_monsters forestOneRequest [wolfMonster, dragonMonster]).length ≤
      forestOneRequest.limit :=
  C2_result_is_limited_filtered_front forestOneRequest
    [wolfMonster, dragonMonster] forestOneRequest_valid

/-- C3: the CR-to-float conversion satisfies the reference table, numbers
are used directly, a string containing `/` is parsed as numerator divided
by denominator, and a plain numeric string is parsed directly. -/
theorem C3_cr_conversion_table :
    convert_cr_to_float (.str "1/2") = 0.5 ∧
    convert_cr_to_float (.str "30") = 30 ∧
    convert_cr_to_float (.num 5) = 5 ∧
    convert_cr_to_float (.str "bad/frac") = -1 ∧
    convert_cr_to_float (.str "notanumber") = -1 ∧
    convert_cr_to_float .other = -1 ∧
    (∀ q : ℚ, convert_cr_to_float (.num q) = q) ∧
    (∀ s : String, ∀ a b : List Char, ∀ n d : ℚ,
      s.toList.contains '/' = true → s.toList.splitOn '/' = [a, b] →
      pyFloatChars a = some n → pyFloatChars b = some d →
      convert_cr_to_float (.str s) = n / d) ∧
    (∀ s : String, ∀ q : ℚ,
      s.toList.contains '/' = false → pyFloatChars s.toList = some q →
      convert_cr_to_float (.str s) = q) := by
  refine ⟨?_, rfl, rfl, rfl, rfl, rfl, fun q => rfl, ?_, ?_⟩
  · rw [show convert_cr_to_float (.str "1/2") = 1 / 2 from rfl]
    norm_num
  · intro s a b n d hs hsplit ha hb
    have hstep : convert_cr_to_float (.str s) =
        if s.toList.contains '/' = true then
          match s.toList.splitOn '/' with
          | [a, b] =>
              match pyFloatChars a, pyFloatChars b with
              | some n, some d => n / d
              | _, _ => -1
          | _ => -1
        else
          match pyFloatChars s.toList with
          | some q => q
          | none => -1 := rfl
    rw [hstep, if_pos hs, hsplit]
    simp only [ha, hb]
  · intro s q hs hq
    have hstep : convert_cr_to_float (.str s) =
        if s.toList.contains '/' = true then
          match s.toList.splitOn '/' with
          | [a, b] =>
              match pyFloatChars a, pyFloatChars b with
              | some n, some d => n / d
              | _, _ => -1
          | _ => -1
        else
          match pyFloatChars s.toList with
          | some q => q
          | none => -1 := rfl
    rw [hstep, if_neg (by rw [hs]; exact Bool.false_ne_true), hq]

/-- Witness for C3: the conversion evaluated on a concrete fraction input
through the general fraction rule. -/
theorem C3_cr_conversion_witness :
    convert_cr_to_float (.str "3/4") = 3 / 4 :=
  C3_cr_conversion_table.2.2.2.2.2.2.2.1 "3/4" ['3'] ['4'] 3 4
    rfl rfl rfl rfl
